import Mathlib

/-!
Verification of the job-matching behaviour of the KLUH application server.

Strings of the JavaScript runtime are modelled as lists of characters
(abbreviation Str); JavaScript numbers arising here are integers and exact
rationals, modelled by Int and Rat; Math.round is modelled exactly as
floor (x + 1/2).  The sort used by the route handlers is the ECMAScript
Array.prototype.sort, which is guaranteed stable since ES2019; it is
modelled by the stable List.mergeSort with the comparator translated to a
boolean order.

The embedded code comes from:
  - src/app/dist-server/routes/jobs.js  (mapJob, getUserSkills consumers,
    the jobs listing endpoint with its search/type/skills filters, the
    per-job match score, and the single-job endpoint),
  - src/app/lib/supabase (parseSkillsText, seen in src/unnamed/part_002),
  - the skill-gap route (src/unnamed/part_009),
  - the profile route's add-skill handler (src/unnamed/part_010).

Definitions whose names start with spec are NOT translations of the code:
they follow the wording of spec.md and exist only to be compared with the
code-derived definitions.
-/

/-- JavaScript strings, modelled as lists of characters. -/
abbrev Str := List Char

/-- Models JavaScript String.prototype.toLowerCase, character by character. -/
def toLowerStr (s : Str) : Str := s.map Char.toLower

/-- The separator class of the regex [,/|] used by parseSkillsText. -/
def isSkillSep (c : Char) : Bool := c == ',' || c == '/' || c == '|'

/-- Models String.prototype.split with a character-class separator: pieces
between separator occurrences are kept, including empty pieces, so the
result is always non-empty ("" splits to [""]). -/
def splitChars (p : Char → Bool) : Str → List Str
  | [] => [[]]
  | c :: cs =>
    if p c then [] :: splitChars p cs
    else
      match splitChars p cs with
      | [] => [[c]]
      | t :: ts => (c :: t) :: ts

/-- Models String.prototype.trim: drops whitespace from both ends. -/
def trimChars (s : Str) : Str :=
  ((s.dropWhile Char.isWhitespace).reverse.dropWhile Char.isWhitespace).reverse

/-- From src/app/lib/supabase (src/unnamed/part_002, parseSkillsText):
a falsy (null or empty) value yields []; otherwise the value is split on
the regex [,/|], each piece is trimmed, and empty pieces are dropped
(filter(Boolean)). -/
def parseSkillsText : Option Str → List Str
  | none => []
  | some s =>
    if s = [] then []
    else ((splitChars isSkillSep s).map trimChars).filter (fun t => !t.isEmpty)

/-- Models Math.round on the non-negative exact values occurring here:
round half up, computed as floor (q + 1/2), using the executable
Batteries floor on Rat. -/
def jsRound (q : ℚ) : ℤ := (q + 1/2).floor

/-- One row of the jobs table as selected by the routes:
id, company, job_title, job_function, vacancies, qualification, experience.
Text columns are nullable. -/
structure JobRow where
  id : ℤ
  company : Option Str
  job_title : Option Str
  job_function : Option Str
  vacancies : Option Str
  qualification : Option Str
  experience : Option Str
deriving DecidableEq

/-- Models the JavaScript idiom (v || d) on nullable strings: null and
the empty string are falsy and give the default. -/
def jsOrStr (v : Option Str) (d : Str) : Str :=
  match v with
  | none => d
  | some s => if s.isEmpty then d else s

/-- Models Array.prototype.join with a separator. -/
def joinSep (sep : Str) : List Str → Str
  | [] => []
  | [s] => s
  | s :: rest => s ++ sep ++ joinSep sep rest

/-- Models [a, b].filter(Boolean) on nullable strings: keeps the truthy
(non-null, non-empty) values. -/
def truthyStrings (l : List (Option Str)) : List Str :=
  l.filterMap (fun v =>
    match v with
    | none => none
    | some s => if s.isEmpty then none else some s)

/-- Models String(n) on an integer id. -/
def intToStr (n : ℤ) : Str := (toString n).toList

/-- The job object produced by mapJob in src/app/dist-server/routes/jobs.js
(lines 5-19). -/
structure MappedJob where
  id : Str
  title : Str
  company : Str
  location : Str
  salary : Str
  type : Str
  skills : List Str
  matchPercentage : ℤ
  postedDate : Str
  description : Str
deriving DecidableEq

/-- mapJob from src/app/dist-server/routes/jobs.js lines 5-19: the skills
shown for a job are parsed from its qualification column, location echoes
job_function, and the base matchPercentage is the constant 60. -/
def mapJob (job : JobRow) : MappedJob :=
  let skills := parseSkillsText job.qualification
  { id := intToStr job.id
    title := jsOrStr job.job_title ("Untitled Role".toList)
    company := jsOrStr job.company ("Unknown Company".toList)
    location := jsOrStr job.job_function ("Not specified".toList)
    salary := "Not specified".toList
    type :=
      match job.vacancies with
      | none => "Open".toList
      | some v => if v.isEmpty then "Open".toList else v ++ " openings".toList
    skills := skills
    matchPercentage := 60
    postedDate := "Recently".toList
    description :=
      jsOrStr (some (joinSep (" • ".toList)
        (truthyStrings [job.qualification, job.experience])))
        ("See full job details".toList) }

/-- job.skills.filter(skill => userSkills.some(u => u.toLowerCase() ===
skill.toLowerCase())) from jobs.js line 66 (and line 119 of the single-job
endpoint): case-insensitive exact comparison. -/
def matchingSkills (userSkills skills : List Str) : List Str :=
  skills.filter (fun skill =>
    userSkills.any (fun userSkill => toLowerStr userSkill == toLowerStr skill))

/-- The dynamic per-job score of jobs.js line 67 (and line 120):
Math.round((matchingSkills.length / job.skills.length) * 100) when the job
has skills, else 0. -/
def dynamicMatch (userSkills skills : List Str) : ℤ :=
  if 0 < skills.length then
    jsRound (((matchingSkills userSkills skills).length : ℚ) / (skills.length : ℚ) * 100)
  else 0

/-- The spread-and-override of jobs.js lines 68-71 and 124-127: the
reported matchPercentage is the maximum of the dynamic score and the base
matchPercentage carried by the mapped job (60 from mapJob). -/
def scoreJob (userSkills : List Str) (job : MappedJob) : MappedJob :=
  { job with matchPercentage := max (dynamicMatch userSkills job.skills) job.matchPercentage }

/-- The comparator (a, b) => b.matchPercentage - a.matchPercentage of
jobs.js line 73, as the boolean order accepted by the stable sort: a may
precede b when the comparator is at most zero. -/
def byScoreDesc (a b : MappedJob) : Bool := decide (b.matchPercentage ≤ a.matchPercentage)

/-- jobs.js lines 65-73: score every job, then sort by matchPercentage
descending with the stable ECMAScript sort. -/
def jobsWithMatchScore (userSkills : List Str) (jobsData : List MappedJob) : List MappedJob :=
  (jobsData.map (scoreJob userSkills)).mergeSort byScoreDesc

/-- The single-job endpoint of jobs.js lines 117-127: map the row and
apply the same max-of-dynamic-and-base score. -/
def getJobDetail (userSkills : List Str) (row : JobRow) : MappedJob :=
  scoreJob userSkills (mapJob row)

/-- The match score the jobs endpoints report for one row and one
candidate skill set. -/
def jobScore (userSkills : List Str) (row : JobRow) : ℤ :=
  (getJobDetail userSkills row).matchPercentage

/-- Models String.prototype.includes: substring containment. -/
def strIncludes : Str → Str → Bool
  | [], needle => needle.isEmpty
  | c :: rest, needle => needle.isPrefixOf (c :: rest) || strIncludes rest needle

/-- The search query filter of jobs.js lines 50-55; an absent or empty
query is falsy and leaves the list unchanged. -/
def applySearch (search : Option Str) (jobs : List MappedJob) : List MappedJob :=
  match search with
  | none => jobs
  | some q =>
    if q.isEmpty then jobs
    else
      jobs.filter (fun job =>
        strIncludes (toLowerStr job.title) (toLowerStr q) ||
        strIncludes (toLowerStr job.company) (toLowerStr q) ||
        job.skills.any (fun skill => strIncludes (toLowerStr skill) (toLowerStr q)))

/-- The type query filter of jobs.js lines 56-59. -/
def applyType (typ : Option Str) (jobs : List MappedJob) : List MappedJob :=
  match typ with
  | none => jobs
  | some q =>
    if q.isEmpty then jobs
    else jobs.filter (fun job => strIncludes (toLowerStr job.type) (toLowerStr q))

/-- The skills query filter of jobs.js lines 60-63: the query is split on
commas only, trimmed and lowercased, and a job is kept when some query
skill occurs inside some job skill. -/
def applySkillsQ (skillsQ : Option Str) (jobs : List MappedJob) : List MappedJob :=
  match skillsQ with
  | none => jobs
  | some q =>
    if q.isEmpty then jobs
    else
      jobs.filter (fun job =>
        ((splitChars (fun c => c == ',') q).map (fun s => toLowerStr (trimChars s))).any
          (fun sk => job.skills.any (fun jobSkill => strIncludes (toLowerStr jobSkill) sk)))

/-- The full jobs listing endpoint of jobs.js lines 35-80: map the rows,
apply the three optional query filters in order, score, and sort. -/
def listJobs (search typ skillsQ : Option Str) (rows : List JobRow) (userSkills : List Str) :
    List MappedJob :=
  jobsWithMatchScore userSkills
    (applySkillsQ skillsQ (applyType typ (applySearch search (rows.map mapJob))))

/-- One entry of the skill-gap analysis of src/unnamed/part_009 (display
fields recommendedTrainings omitted; no claim touches them). -/
structure JobAnalysis where
  jobTitle : Str
  company : Str
  overallMatch : ℤ
  matchingSkills : List Str
  missingSkills : List Str
deriving DecidableEq

/-- The per-job analysis of src/unnamed/part_009 lines 238-277: skills are
parsed from qualification; a job skill matches when its lowercase form is
a member of the (already lowercased) user skill list; the index-based
filters of the source select exactly the elements whose lowercase form is
or is not a member. -/
def analyzeJob (userSkillsLower : List Str) (row : JobRow) : JobAnalysis :=
  let jobSkills := parseSkillsText row.qualification
  let matching := jobSkills.filter (fun sk => userSkillsLower.contains (toLowerStr sk))
  let missing := jobSkills.filter (fun sk => !(userSkillsLower.contains (toLowerStr sk)))
  { jobTitle := jsOrStr row.job_title ("Untitled Role".toList)
    company := jsOrStr row.company ("Unknown Company".toList)
    overallMatch :=
      if 0 < jobSkills.length then
        jsRound ((matching.length : ℚ) / (jobSkills.length : ℚ) * 100)
      else 0
    matchingSkills := matching
    missingSkills := missing }

/-- The comparator (a, b) => a.overallMatch - b.overallMatch of the
skill-gap route (src/unnamed/part_009 line 281 and
src/app/dist-server/routes/skillGap.js line 89), ascending. -/
def byMatchAsc (a b : JobAnalysis) : Bool := decide (a.overallMatch ≤ b.overallMatch)

/-- The skill-gap analysis endpoint: lowercase the user skills, analyze
each job, and sort ascending by overallMatch (lowest match first). -/
def skillGapAnalysis (userSkills : List Str) (rows : List JobRow) : List JobAnalysis :=
  (rows.map (analyzeJob (userSkills.map toLowerStr))).mergeSort byMatchAsc

/-- Outcome of the add-skill handler: HTTP status and the stored skill
list after the request. -/
structure SkillsResponse where
  status : ℕ
  skills : List Str
deriving DecidableEq

/-- The add-skill handler of src/unnamed/part_010 lines 192-245: a falsy
or non-string body is rejected with 400; a skill already present under
exact string equality (Array.prototype.includes) gets 409 with no update;
otherwise the skill is appended and stored. -/
def addSkill (currentSkills : List Str) (body : Option Str) : SkillsResponse :=
  match body with
  | none => { status := 400, skills := currentSkills }
  | some skill =>
    if skill.isEmpty then { status := 400, skills := currentSkills }
    else if currentSkills.contains skill then { status := 409, skills := currentSkills }
    else { status := 200, skills := currentSkills ++ [skill] }

/-- Modelled from the spec: tokenizeCsv of spec.md section 4.2, splitting
on commas only, trimming, and dropping empty tokens; a null input yields
the empty sequence. Used only for comparison with parseSkillsText. -/
def specTokenizeCsv : Option Str → List Str
  | none => []
  | some s => ((splitChars (fun c => c == ',') s).map trimChars).filter (fun t => !t.isEmpty)

/-- Maps the separators recognised by the code to commas and leaves every
other character unchanged; the bridge between the code's tokenizer and
the comma-only tokenizer. -/
def normSep (c : Char) : Char := if isSkillSep c then ',' else c

/-- Modelled from the spec: rounding a value to two decimals, half up. -/
def roundTo2 (x : ℚ) : ℚ := ((⌊x * 100 + 1/2⌋ : ℤ) : ℚ) / 100

/-- Modelled from the spec: the weighted formula of spec.md section 4.4,
final = skill*0.50 + role*0.30 + experience*0.20, reported as
round(final*100, 2). Used only for comparison with the code's score. -/
def specFinalPercent (skillScore roleScore experienceScore : ℚ) : ℚ :=
  roundTo2 ((skillScore * (1/2) + roleScore * (3/10) + experienceScore * (1/5)) * 100)

/-- Modelled from the spec: a required-skill token matches a candidate
skill case-insensitively by exact or substring comparison (spec.md
section 4.4 step 1). -/
def specTokenMatched (userSkills : List Str) (tok : Str) : Bool :=
  userSkills.any (fun cu =>
    toLowerStr cu == toLowerStr tok ||
    strIncludes (toLowerStr cu) (toLowerStr tok) ||
    strIncludes (toLowerStr tok) (toLowerStr cu))

/-- Modelled from the spec: skillScore = matchedTokenCount /
totalTokenCount under the exact-or-substring matching, 0 for an empty
token list. -/
def specSkillScore (userSkills toks : List Str) : ℚ :=
  if toks = [] then 0
  else ((toks.filter (specTokenMatched userSkills)).length : ℚ) / (toks.length : ℚ)

/-- Concrete row with qualification Python, all other text columns null. -/
def rowPy : JobRow :=
  { id := 1, company := none, job_title := none, job_function := none,
    vacancies := none, qualification := some ("Python".toList), experience := none }

/-- Concrete row with every text column null. -/
def row0 : JobRow :=
  { id := 2, company := none, job_title := none, job_function := none,
    vacancies := none, qualification := none, experience := none }

/-- Concrete row with an empty job_function but a non-empty qualification. -/
def rowFn : JobRow :=
  { id := 3, company := none, job_title := none, job_function := some [],
    vacancies := none, qualification := some ("Python".toList), experience := none }

/-- Concrete mapped job with no skills and the base score. -/
def jobA : MappedJob :=
  { id := "1".toList, title := "A".toList, company := [], location := [],
    salary := [], type := [], skills := [], matchPercentage := 60,
    postedDate := [], description := [] }

/-- Second concrete mapped job, differing from jobA only in its title. -/
def jobB : MappedJob :=
  { id := "2".toList, title := "B".toList, company := [], location := [],
    salary := [], type := [], skills := [], matchPercentage := 60,
    postedDate := [], description := [] }

theorem jsRound_eq_floor (q : ℚ) : jsRound q = ⌊q + 1/2⌋ := by
  rw [jsRound, Rat.floor_def', ← Rat.floor_def]

theorem jsRound_zero : jsRound 0 = 0 := by
  rw [jsRound_eq_floor]; norm_num

theorem jsRound_nonneg (q : ℚ) (h : 0 ≤ q) : 0 ≤ jsRound q := by
  rw [jsRound_eq_floor]
  exact Int.le_floor.mpr (by push_cast; linarith)

theorem jsRound_le_100 (q : ℚ) (h : q ≤ 100) : jsRound q ≤ 100 := by
  rw [jsRound_eq_floor]
  have h3 : ⌊q + 1/2⌋ < 101 := by
    rw [Int.floor_lt]; push_cast; linarith
  omega

theorem matching_frac_le_one (u s : List Str) (h : s ≠ []) :
    ((matchingSkills u s).length : ℚ) / (s.length : ℚ) ≤ 1 := by
  have hle : (matchingSkills u s).length ≤ s.length := List.length_filter_le _ _
  have hpos : 0 < s.length := List.length_pos.mpr h
  rw [div_le_one (by exact_mod_cast hpos)]
  exact_mod_cast hle

theorem dynamicMatch_nonneg (u s : List Str) : 0 ≤ dynamicMatch u s := by
  unfold dynamicMatch
  split
  · apply jsRound_nonneg
    positivity
  · exact le_refl 0

theorem dynamicMatch_le_100 (u s : List Str) : dynamicMatch u s ≤ 100 := by
  unfold dynamicMatch
  split
  · next h =>
    apply jsRound_le_100
    have h1 := matching_frac_le_one u s (List.length_pos.mp h)
    linarith
  · norm_num

theorem dynamicMatch_eval (u s : List Str) (m n : ℕ)
    (hm : (matchingSkills u s).length = m) (hn : s.length = n) (hpos : 0 < n) :
    dynamicMatch u s = jsRound ((m : ℚ) / (n : ℚ) * 100) := by
  unfold dynamicMatch
  rw [hm, hn, if_pos hpos]

theorem jobScore_eq (u : List Str) (row : JobRow) :
    jobScore u row = max (dynamicMatch u (parseSkillsText row.qualification)) 60 := rfl

theorem roundTo2_intCast (z : ℤ) : roundTo2 ((z : ℚ)) = (z : ℚ) := by
  unfold roundTo2
  have h1 : ((z : ℚ) * 100 + 1/2) = ((100 * z : ℤ) : ℚ) + 1/2 := by push_cast; ring
  rw [h1, Int.floor_int_add]
  have h0 : ⌊(1/2 : ℚ)⌋ = 0 := by norm_num
  rw [h0]
  push_cast
  ring

theorem byScoreDesc_trans (a b c : MappedJob) :
    byScoreDesc a b → byScoreDesc b c → byScoreDesc a c := by
  simp only [byScoreDesc, decide_eq_true_eq]
  omega

theorem byScoreDesc_total (a b : MappedJob) : byScoreDesc a b || byScoreDesc b a := by
  simp only [byScoreDesc, Bool.or_eq_true, decide_eq_true_eq]
  omega

theorem byMatchAsc_trans (a b c : JobAnalysis) :
    byMatchAsc a b → byMatchAsc b c → byMatchAsc a c := by
  simp only [byMatchAsc, decide_eq_true_eq]
  omega

theorem byMatchAsc_total (a b : JobAnalysis) : byMatchAsc a b || byMatchAsc b a := by
  simp only [byMatchAsc, Bool.or_eq_true, decide_eq_true_eq]
  omega

theorem sorted_jobsWithMatchScore (u : List Str) (jobsData : List MappedJob) :
    (jobsWithMatchScore u jobsData).Pairwise
      (fun a b => b.matchPercentage ≤ a.matchPercentage) := by
  unfold jobsWithMatchScore
  have h := List.sorted_mergeSort byScoreDesc_trans byScoreDesc_total
    (jobsData.map (scoreJob u))
  exact h.imp (fun {a b} hh => by simpa [byScoreDesc] using hh)

theorem sorted_skillGapAnalysis (u : List Str) (rows : List JobRow) :
    (skillGapAnalysis u rows).Pairwise (fun a b => a.overallMatch ≤ b.overallMatch) := by
  unfold skillGapAnalysis
  have h := List.sorted_mergeSort byMatchAsc_trans byMatchAsc_total
    (rows.map (analyzeJob (u.map toLowerStr)))
  exact h.imp (fun {a b} hh => by simpa [byMatchAsc] using hh)

theorem mem_of_mem_applySearch {j : MappedJob} {q : Option Str} {l : List MappedJob}
    (h : j ∈ applySearch q l) : j ∈ l := by
  cases q with
  | none => exact h
  | some s =>
    simp only [applySearch] at h
    split at h
    · exact h
    · exact (List.mem_filter.mp h).1

theorem mem_of_mem_applyType {j : MappedJob} {q : Option Str} {l : List MappedJob}
    (h : j ∈ applyType q l) : j ∈ l := by
  cases q with
  | none => exact h
  | some s =>
    simp only [applyType] at h
    split at h
    · exact h
    · exact (List.mem_filter.mp h).1

theorem mem_of_mem_applySkillsQ {j : MappedJob} {q : Option Str} {l : List MappedJob}
    (h : j ∈ applySkillsQ q l) : j ∈ l := by
  cases q with
  | none => exact h
  | some s =>
    simp only [applySkillsQ] at h
    split at h
    · exact h
    · exact (List.mem_filter.mp h).1

theorem splitChars_map_normSep (cs : Str) :
    splitChars (fun c => c == ',') (cs.map normSep) = splitChars isSkillSep cs := by
  induction cs with
  | nil => rfl
  | cons c cs ih =>
    rw [List.map_cons]
    by_cases h : isSkillSep c = true
    · have hn : normSep c = ',' := by simp [normSep, h]
      simp only [splitChars, hn, h, beq_self_eq_true, if_true, ih]
    · have hf : isSkillSep c = false := by simpa using h
      have hn : normSep c = c := by simp [normSep, hf]
      have hc : (c == ',') = false := by
        simp only [isSkillSep, Bool.or_eq_false_iff] at hf
        exact hf.1.1
      simp only [splitChars, hn, hc, hf, Bool.false_eq_true, if_false, ih]

/-- Claim C1 (corrected). The original claim says qualification never
influences scoring; in the code the skills driving the score are parsed
from qualification, so it does. Amended: qualification is the only job
field that influences the score — two rows with the same qualification
text receive the same score from the jobs endpoints for every candidate
skill set. -/
theorem jobScore_depends_only_on_qualification (u : List Str) (r1 r2 : JobRow)
    (h : r1.qualification = r2.qualification) : jobScore u r1 = jobScore u r2 := by
  rw [jobScore_eq, jobScore_eq, h]

/-- Witness for claim C1: two rows identical except in job_title get the
same score. -/
theorem jobScore_depends_only_on_qualification_witness :
    jobScore ["python".toList] rowPy =
      jobScore ["python".toList] { rowPy with job_title := some ("Engineer".toList) } :=
  jobScore_depends_only_on_qualification ["python".toList] rowPy
    { rowPy with job_title := some ("Engineer".toList) } rfl

/-- Counterexample for claim C1 as stated: two rows identical except in
their qualification text get different scores (100 versus 60) for the
same candidate, so the qualification field does influence scoring. -/
theorem jobScore_qualification_sensitive_cex :
    jobScore ["python".toList] rowPy = 100 ∧
    jobScore ["python".toList] { rowPy with qualification := some ("Java".toList) } = 60 := by
  constructor
  · rw [jobScore_eq]
    have e1 : dynamicMatch ["python".toList] (parseSkillsText rowPy.qualification) =
        jsRound ((1 : ℚ) / (1 : ℚ) * 100) :=
      dynamicMatch_eval _ _ 1 1 (by decide) (by decide) (by norm_num)
    rw [e1, jsRound_eq_floor]
    norm_num
  · rw [jobScore_eq]
    have e1 : dynamicMatch ["python".toList]
        (parseSkillsText ({ rowPy with qualification := some ("Java".toList)} : JobRow).qualification) =
        jsRound ((0 : ℚ) / (1 : ℚ) * 100) :=
      dynamicMatch_eval _ _ 0 1 (by decide) (by decide) (by norm_num)
    rw [e1, jsRound_eq_floor]
    norm_num

/-- Claim C2 (corrected). The code reports no weighted three-factor
formula: the reported score equals the maximum of
Math.round(100 * matchedCount / totalCount) and the base 60, with the
ratio 0 when no skills parse from the qualification. -/
theorem jobScore_formula (u : List Str) (row : JobRow) :
    jobScore u row =
      max (jsRound (100 * ((matchingSkills u (parseSkillsText row.qualification)).length : ℚ) /
        ((parseSkillsText row.qualification).length : ℚ))) 60 := by
  rw [jobScore_eq]
  unfold dynamicMatch
  split
  · next h =>
    have h1 : ((matchingSkills u (parseSkillsText row.qualification)).length : ℚ) /
        ((parseSkillsText row.qualification).length : ℚ) * 100 =
        100 * ((matchingSkills u (parseSkillsText row.qualification)).length : ℚ) /
        ((parseSkillsText row.qualification).length : ℚ) := by ring
    rw [h1]
  · next h =>
    have h0 : (parseSkillsText row.qualification).length = 0 := by omega
    rw [h0, Nat.cast_zero, div_zero, jsRound_zero]

/-- Counterexample for claim C2 as stated: on a row with no parsable
skills and an empty candidate profile the code reports 60, while the
spec formula (skill 0, role 0, unparseable experience 0.5) reports 10. -/
theorem weighted_formula_cex :
    jobScore [] row0 = 60 ∧ specFinalPercent 0 0 (1/2) = 10 ∧ (60 : ℚ) ≠ (10 : ℚ) := by
  refine ⟨?_, ?_, by norm_num⟩
  · rw [jobScore_eq]
    have e1 : dynamicMatch [] (parseSkillsText row0.qualification) = 0 := by decide
    rw [e1]
    decide
  · unfold specFinalPercent roundTo2
    norm_num

/-- Claim C3 (corrected). The original claim allows a token to match by
exact or substring comparison; the code matches only by case-insensitive
exact equality. Amended: for a non-empty skill list the dynamic score is
Math.round of 100 times matchedCount/totalCount, a token is matched
exactly when some candidate skill equals it case-insensitively, and the
ratio lies in [0, 1]. -/
theorem skill_match_exact_ci (u skills' : List Str) (h : skills' ≠ []) :
    dynamicMatch u skills' =
      jsRound (((matchingSkills u skills').length : ℚ) / (skills'.length : ℚ) * 100) ∧
    (∀ sk, sk ∈ matchingSkills u skills' ↔
      sk ∈ skills' ∧ ∃ c ∈ u, toLowerStr c = toLowerStr sk) ∧
    0 ≤ ((matchingSkills u skills').length : ℚ) / (skills'.length : ℚ) ∧
    ((matchingSkills u skills').length : ℚ) / (skills'.length : ℚ) ≤ 1 := by
  refine ⟨?_, ?_, ?_, matching_frac_le_one u skills' h⟩
  · unfold dynamicMatch
    rw [if_pos (List.length_pos.mpr h)]
  · intro sk
    simp [matchingSkills, toLowerStr]
  · positivity

/-- Witness for claim C3 at a concrete candidate and skill list. -/
theorem skill_match_exact_ci_witness :
    dynamicMatch ["Python".toList] ["python".toList] =
      jsRound (((matchingSkills ["Python".toList] ["python".toList]).length : ℚ) /
        ((["python".toList] : List Str).length : ℚ) * 100) ∧
    (∀ sk, sk ∈ matchingSkills ["Python".toList] ["python".toList] ↔
      sk ∈ (["python".toList] : List Str) ∧
        ∃ c ∈ (["Python".toList] : List Str), toLowerStr c = toLowerStr sk) ∧
    0 ≤ ((matchingSkills ["Python".toList] ["python".toList]).length : ℚ) /
      ((["python".toList] : List Str).length : ℚ) ∧
    ((matchingSkills ["Python".toList] ["python".toList]).length : ℚ) /
      ((["python".toList] : List Str).length : ℚ) ≤ 1 :=
  skill_match_exact_ci ["Python".toList] ["python".toList] (by decide)

/-- Counterexample for claim C3 as stated: the token Java matches the
candidate skill JavaScript under the spec's substring comparison (ratio
1), but the code's exact comparison matches nothing and scores 0. -/
theorem substring_match_cex :
    specSkillScore ["JavaScript".toList] ["Java".toList] = 1 ∧
    matchingSkills ["JavaScript".toList] ["Java".toList] = [] ∧
    dynamicMatch ["JavaScript".toList] ["Java".toList] = 0 := by
  refine ⟨?_, by decide, ?_⟩
  · unfold specSkillScore
    rw [if_neg (by decide)]
    have h1 : ((["Java".toList] : List Str).filter
        (specTokenMatched ["JavaScript".toList])).length = 1 := by decide
    have h2 : (["Java".toList] : List Str).length = 1 := rfl
    rw [h1, h2]
    norm_num
  · have e1 : dynamicMatch ["JavaScript".toList] ["Java".toList] =
        jsRound ((0 : ℚ) / (1 : ℚ) * 100) :=
      dynamicMatch_eval _ _ 0 1 (by decide) (by decide) (by norm_num)
    rw [e1, jsRound_eq_floor]
    norm_num

/-- Claim C4 (corrected). The original claim ties the zero skill score to
an empty jobFunction; in the code the skills come from qualification and
jobFunction is display-only. Amended: a row whose qualification is null
or empty parses to zero skill tokens and gets dynamic skill score 0 for
every candidate skill set, a normal scoring result with the reported
score falling back to the base 60. -/
theorem empty_qualification_zero_skill (u : List Str) (row : JobRow)
    (h : row.qualification = none ∨ row.qualification = some []) :
    parseSkillsText row.qualification = [] ∧
    dynamicMatch u (parseSkillsText row.qualification) = 0 ∧
    jobScore u row = 60 := by
  have hp : parseSkillsText row.qualification = [] := by
    rcases h with h | h <;> rw [h] <;> rfl
  have hd : dynamicMatch u (parseSkillsText row.qualification) = 0 := by
    rw [hp]
    rfl
  refine ⟨hp, hd, ?_⟩
  rw [jobScore_eq, hd]
  rfl

/-- Witness for claim C4: the all-null row scores 60 with zero dynamic
skill score. -/
theorem empty_qualification_zero_skill_witness :
    parseSkillsText row0.qualification = [] ∧
    dynamicMatch ["python".toList] (parseSkillsText row0.qualification) = 0 ∧
    jobScore ["python".toList] row0 = 60 :=
  empty_qualification_zero_skill ["python".toList] row0 (Or.inl rfl)

/-- Counterexample for claim C4 as stated: a row with an empty
job_function but qualification Python gets dynamic skill score 100, not
0, for a candidate knowing python. -/
theorem empty_jobFunction_cex :
    rowFn.job_function = some [] ∧
    dynamicMatch ["python".toList] (parseSkillsText rowFn.qualification) = 100 := by
  refine ⟨rfl, ?_⟩
  have e1 : dynamicMatch ["python".toList] (parseSkillsText rowFn.qualification) =
      jsRound ((1 : ℚ) / (1 : ℚ) * 100) :=
    dynamicMatch_eval _ _ 1 1 (by decide) (by decide) (by norm_num)
  rw [e1, jsRound_eq_floor]
  norm_num

/-- Claim C5 (confirmed). The jobs listing is ordered by the reported
match percentage descending, and the sort is stable: two jobs whose
scored records have equal percentages keep the relative order they had in
the input to the sort. -/
theorem jobs_sorted_desc_stable (u : List Str) (jobsData : List MappedJob) :
    (jobsWithMatchScore u jobsData).Pairwise
      (fun a b => b.matchPercentage ≤ a.matchPercentage) ∧
    (∀ a b : MappedJob, List.Sublist [a, b] jobsData →
      (scoreJob u a).matchPercentage = (scoreJob u b).matchPercentage →
      List.Sublist [scoreJob u a, scoreJob u b] (jobsWithMatchScore u jobsData)) := by
  refine ⟨sorted_jobsWithMatchScore u jobsData, ?_⟩
  intro a b hsub heq
  unfold jobsWithMatchScore
  apply List.pair_sublist_mergeSort byScoreDesc_trans byScoreDesc_total
  · exact decide_eq_true (le_of_eq heq.symm)
  · exact List.Sublist.map (scoreJob u) hsub

/-- Witness for claim C5: two equal-scored jobs keep their input order in
the sorted output. -/
theorem jobs_sorted_desc_stable_witness :
    List.Sublist [scoreJob [] jobA, scoreJob [] jobB] (jobsWithMatchScore [] [jobA, jobB]) :=
  (jobs_sorted_desc_stable [] [jobA, jobB]).2 jobA jobB (List.Sublist.refl _) (by decide)

/-- Claim C6 (confirmed). For every candidate skill set and every row the
reported score lies in [0, 100] and, being an integer, is a fixed point
of rounding to two decimals. -/
theorem jobScore_bounds_rounded (u : List Str) (row : JobRow) :
    0 ≤ jobScore u row ∧ jobScore u row ≤ 100 ∧
    roundTo2 ((jobScore u row : ℤ) : ℚ) = ((jobScore u row : ℤ) : ℚ) := by
  refine ⟨?_, ?_, roundTo2_intCast _⟩
  · rw [jobScore_eq]
    exact le_trans (by norm_num) (le_max_right _ 60)
  · rw [jobScore_eq]
    exact max_le (dynamicMatch_le_100 u _) (by norm_num)

/-- Claim C7 (corrected). The original claim says parseSkillsText splits
on commas; the code splits on the character class [,/|]. Amended:
parseSkillsText returns the trimmed, non-empty tokens obtained by
splitting on commas, forward slashes and vertical bars — equivalently,
comma tokenization after the other two separators are mapped to commas —
and a null or empty input gives the empty sequence. -/
theorem parseSkillsText_tokenization (v : Option Str) :
    parseSkillsText v = specTokenizeCsv (v.map (List.map normSep)) ∧
    (∀ t ∈ parseSkillsText v, t ≠ []) := by
  constructor
  · cases v with
    | none => rfl
    | some s =>
      by_cases hs : s = []
      · subst hs; rfl
      · simp only [parseSkillsText, specTokenizeCsv, Option.map_some']
        rw [if_neg hs, splitChars_map_normSep]
  · intro t ht he
    cases v with
    | none => simp [parseSkillsText] at ht
    | some s =>
      simp only [parseSkillsText] at ht
      split at ht
      · exact absurd ht (List.not_mem_nil t)
      · have h2 := (List.mem_filter.mp ht).2
        rw [he] at h2
        simp at h2

/-- Witness for claim C7 at a concrete input with surrounding blanks. -/
theorem parseSkillsText_tokenization_witness :
    parseSkillsText (some (" a,b ".toList)) =
      specTokenizeCsv ((some (" a,b ".toList)).map (List.map normSep)) ∧
    (∀ t ∈ parseSkillsText (some (" a,b ".toList)), t ≠ []) :=
  parseSkillsText_tokenization (some (" a,b ".toList))

/-- Counterexample for claim C7 as stated: on the input a/b the code
returns two tokens while comma-only tokenization returns one. -/
theorem parseSkillsText_comma_only_cex :
    parseSkillsText (some ("a/b".toList)) = ["a".toList, "b".toList] ∧
    specTokenizeCsv (some ("a/b".toList)) = ["a/b".toList] ∧
    parseSkillsText (some ("a/b".toList)) ≠ specTokenizeCsv (some ("a/b".toList)) := by
  decide

/-- Claim C8 (confirmed). Every job returned by the jobs listing endpoint
(under any combination of search, type and skills query filters) and by
the single-job endpoint carries matchPercentage at least 60, because the
base from mapJob is 60 and the reported value is the maximum of the
dynamic score and that base. -/
theorem matchPercentage_ge_60 (search typ skillsQ : Option Str) (rows : List JobRow)
    (u : List Str) :
    (∀ j ∈ listJobs search typ skillsQ rows u, 60 ≤ j.matchPercentage) ∧
    (∀ row : JobRow, 60 ≤ (getJobDetail u row).matchPercentage) := by
  constructor
  · intro j hj
    unfold listJobs jobsWithMatchScore at hj
    rw [List.mem_mergeSort] at hj
    obtain ⟨x, hx, rfl⟩ := List.mem_map.mp hj
    have hx1 := mem_of_mem_applySearch (mem_of_mem_applyType (mem_of_mem_applySkillsQ hx))
    obtain ⟨r, hr, rfl⟩ := List.mem_map.mp hx1
    have he : (scoreJob u (mapJob r)).matchPercentage =
        max (dynamicMatch u (parseSkillsText r.qualification)) 60 := rfl
    rw [he]
    exact le_max_right _ 60
  · intro row
    have he : (getJobDetail u row).matchPercentage =
        max (dynamicMatch u (parseSkillsText row.qualification)) 60 := rfl
    rw [he]
    exact le_max_right _ 60

/-- Witness for claim C8: the single row with qualification Python is
listed with score at least 60. -/
theorem matchPercentage_ge_60_witness :
    60 ≤ (scoreJob [] (mapJob row0)).matchPercentage :=
  (matchPercentage_ge_60 none none none [row0] []).1 (scoreJob [] (mapJob row0))
    (by simp [listJobs, jobsWithMatchScore, applySearch, applyType, applySkillsQ])

/-- Claim C9 (confirmed). The skill-gap analysis is sorted by
overallMatch ascending (lowest match first), the opposite of the jobs
listing, which is sorted by matchPercentage descending. -/
theorem skillGap_asc_jobs_desc (u : List Str) (rows : List JobRow) (u2 : List Str)
    (jobsData : List MappedJob) :
    (skillGapAnalysis u rows).Pairwise (fun a b => a.overallMatch ≤ b.overallMatch) ∧
    (jobsWithMatchScore u2 jobsData).Pairwise
      (fun a b => b.matchPercentage ≤ a.matchPercentage) :=
  ⟨sorted_skillGapAnalysis u rows, sorted_jobsWithMatchScore u2 jobsData⟩

/-- Claim C10 (confirmed). A skill already stored under exact string
equality is rejected with 409 and the stored list is unchanged; a skill
absent under exact equality is appended with 200 — in particular a skill
differing from a stored one only in letter case is appended, even though
the scoring comparison treats the two as equal (a one-token job list
against such a candidate scores 100). -/
theorem addSkill_duplicate_behavior (cur : List Str) (skill : Str) (hne : skill ≠ []) :
    (skill ∈ cur → addSkill cur (some skill) = { status := 409, skills := cur }) ∧
    (skill ∉ cur → addSkill cur (some skill) = { status := 200, skills := cur ++ [skill] }) ∧
    (∀ c ∈ cur, toLowerStr c = toLowerStr skill → skill ∉ cur →
      (addSkill cur (some skill)).status = 200 ∧ dynamicMatch cur [skill] = 100) := by
  have hEmpty : skill.isEmpty = false := by
    cases skill with
    | nil => exact absurd rfl hne
    | cons a l => rfl
  refine ⟨?_, ?_, ?_⟩
  · intro hmem
    simp [addSkill, hEmpty, hmem]
  · intro hnot
    simp [addSkill, hEmpty, hnot]
  · intro c hc hlow hnot
    constructor
    · simp [addSkill, hEmpty, hnot]
    · have hany : cur.any (fun x => toLowerStr x == toLowerStr skill) = true :=
        List.any_eq_true.mpr ⟨c, hc, by simp [hlow]⟩
      have hm : matchingSkills cur [skill] = [skill] := by
        simp [matchingSkills, List.filter_cons, hany]
      have h1 : (matchingSkills cur [skill]).length = 1 := by rw [hm]; rfl
      have h3 := dynamicMatch_eval cur [skill] 1 1 h1 rfl (by norm_num)
      rw [h3, jsRound_eq_floor]
      norm_num

/-- Witness for claim C10: with Python stored, adding python (different
case) succeeds with 200 and the scorer rates the pair a full match. -/
theorem addSkill_duplicate_behavior_witness :
    (addSkill ["Python".toList] (some ("python".toList))).status = 200 ∧
    dynamicMatch ["Python".toList] ["python".toList] = 100 :=
  (addSkill_duplicate_behavior ["Python".toList] ("python".toList) (by decide)).2.2
    ("Python".toList) (by decide) (by decide) (by decide)
